import Mathlib

/-!
# Verification of the pytahoe client library

A shallow embedding of `src/pytahoe/__init__.py` (a Tahoe-LAFS WAPI client).

Conventions of the embedding:

* The WAPI JSON envelope `[tag, details]` becomes the inductive `Env`:
  the tag string plus the detail fields the code reads.  A Python
  `details['key']` access on a possibly-missing key is an `Option` match
  whose `none` case is the uncaught `KeyError` (`Err.keyError`).
* Python's `"filenode" in data`, with `data` the two-element list
  `[tag, details]`, tests list membership; since the second element is a
  dict, this is equality of the tag string.
* The network is a `Grid`: a map from URI to the envelope that a
  `GET /uri/<uri>?t=json` fetch returns (`none` = unreachable/invalid
  response).  Resolution functions also return the list of URIs they
  fetched, so that "no separate fetch is issued" claims are statable.
* Exceptions become the `Err` inductive; `Except Err` is the result type
  of fallible operations.  Constructors are keyed to the exception class
  and message raised in the source.
* Directory resolution recurses through the grid (a child directory
  re-fetches its own listing), so the recursion is fuelled; running out
  of fuel is the distinct `Err.outOfFuel`, which no theorem conflates
  with a genuine outcome.
-/

set_option autoImplicit false

namespace Pytahoe

/-! ## Filename sanitization (`Filesystem._sanitize_filename`)

The source is `re.sub("[^a-zA-Z0-9 $_.+!*'(),-]+", "", name)`: every
maximal run of characters outside the safe class is replaced by the empty
string.  `reSubUnsafe` models the regex engine's scan directly: on an
unsafe character it consumes the whole unsafe run, then continues. -/

/-- The character class `[a-zA-Z0-9 $_.+!*'(),-]` of the sanitizing regex. -/
def isSafeChar (c : Char) : Bool :=
  ('a' ≤ c && c ≤ 'z') || ('A' ≤ c && c ≤ 'Z') || ('0' ≤ c && c ≤ '9') ||
    c = ' ' || c = '$' || c = '_' || c = '.' || c = '+' || c = '!' ||
    c = '*' || c = '\'' || c = '(' || c = ')' || c = ',' || c = '-'

/-- Skip the maximal run of unsafe characters at the head of the list
(the `+` in the regex consuming greedily). -/
def dropUnsafeRun : List Char → List Char
  | [] => []
  | c :: rest => if isSafeChar c then c :: rest else dropUnsafeRun rest

theorem dropUnsafeRun_length_le : ∀ l : List Char, (dropUnsafeRun l).length ≤ l.length
  | [] => Nat.le_refl _
  | c :: rest => by
    unfold dropUnsafeRun
    by_cases h : isSafeChar c
    · simp [h]
    · simp only [h, if_false]
      exact Nat.le_succ_of_le (dropUnsafeRun_length_le rest)

/-- `re.sub` with empty replacement: emit safe characters, delete each
maximal unsafe run.  The recursion shortens the list at every step but
not structurally (the unsafe branch recurses on `dropUnsafeRun rest`),
so it is driven by a fuel that starts at the list length — enough to
never run dry. -/
def reSubGo : Nat → List Char → List Char
  | _, [] => []
  | 0, _ :: _ => []
  | fuel + 1, c :: rest =>
    if isSafeChar c then c :: reSubGo fuel rest
    else reSubGo fuel (dropUnsafeRun rest)

def reSubUnsafe (l : List Char) : List Char :=
  reSubGo l.length l

/-- `Filesystem._sanitize_filename`. -/
def sanitize (s : String) : String :=
  ⟨reSubUnsafe s.data⟩

theorem filter_dropUnsafeRun (l : List Char) :
    (dropUnsafeRun l).filter isSafeChar = l.filter isSafeChar := by
  induction l with
  | nil => simp [dropUnsafeRun]
  | cons d ds ihd =>
    by_cases hd : isSafeChar d
    · simp [dropUnsafeRun, hd]
    · simp [dropUnsafeRun, hd, List.filter_cons, ihd]

theorem reSubGo_eq_filter :
    ∀ (fuel : Nat) (l : List Char), l.length ≤ fuel →
      reSubGo fuel l = l.filter isSafeChar := by
  intro fuel
  induction fuel with
  | zero =>
    intro l hl
    match l with
    | [] => simp [reSubGo]
    | _ :: _ => simp at hl
  | succ n ih =>
    intro l hl
    match l with
    | [] => simp [reSubGo]
    | c :: rest =>
      by_cases h : isSafeChar c
      · simp only [reSubGo, h, if_true, List.filter_cons]
        rw [ih rest (by simpa using Nat.le_of_succ_le_succ hl)]
      · simp only [reSubGo, h, if_false, List.filter_cons, Bool.false_eq_true]
        rw [ih (dropUnsafeRun rest)
          (Nat.le_trans (dropUnsafeRun_length_le rest)
            (by simpa using Nat.le_of_succ_le_succ hl))]
        simp [h, filter_dropUnsafeRun]

theorem reSubUnsafe_eq_filter (l : List Char) :
    reSubUnsafe l = l.filter isSafeChar :=
  reSubGo_eq_filter l.length l (Nat.le_refl _)

theorem sanitize_idem (x : String) : sanitize (sanitize x) = sanitize x := by
  show (⟨reSubUnsafe (sanitize x).data⟩ : String) = sanitize x
  have h1 : (sanitize x).data = x.data.filter isSafeChar :=
    reSubUnsafe_eq_filter x.data
  have h2 : reSubUnsafe (sanitize x).data = (sanitize x).data := by
    rw [h1, reSubUnsafe_eq_filter]
    rw [List.filter_filter]
    simp
  rw [h2]

/-- C5: filename sanitization removes exactly the characters outside the
safe set `[A-Za-z0-9 $_.+!*'(),-]`, keeps the remaining characters in
order (it is the filter by the safe class), and is idempotent. -/
theorem c5_sanitize_filter_idem (x : String) :
    (sanitize x).data = x.data.filter isSafeChar ∧
      sanitize (sanitize x) = sanitize x :=
  ⟨reSubUnsafe_eq_filter x.data, sanitize_idem x⟩

/-! ## Envelopes, errors, nodes, and the grid -/

/-- The WAPI JSON envelope `[tag, details]` for an object, restricted to
the fields the client reads.  `children` maps child names to their
embedded envelopes (one level deep, as the grid returns them).  A `none`
field is a key absent from the details dict. -/
inductive Env : Type where
  | mk (tag : String) (mutab : Option Bool) (ro : Option String)
      (rw : Option String) (verify : Option String) (size : Option Nat)
      (children : Option (List (String × Env)))

def Env.tag : Env → String
  | .mk t _ _ _ _ _ _ => t

def Env.mutab : Env → Option Bool
  | .mk _ m _ _ _ _ _ => m

def Env.ro : Env → Option String
  | .mk _ _ r _ _ _ _ => r

def Env.rw : Env → Option String
  | .mk _ _ _ w _ _ _ => w

def Env.verify : Env → Option String
  | .mk _ _ _ _ v _ _ => v

def Env.size : Env → Option Nat
  | .mk _ _ _ _ _ s _ => s

def Env.children : Env → Option (List (String × Env))
  | .mk _ _ _ _ _ _ c => c

/-- Exceptions the source raises, keyed by class and message.

* `notFound`       — `ObjectException("The specified object does not appear to exist.")`
* `notADirectory`  — `ObjectException("The specified object is not a directory.")`
* `notAFile`       — `ObjectException("The specified object is not a file.")`
* `invalidObject`  — `ObjectException` for an invalid object/directory in `attach`
* `dirNotWritable` — `ObjectException("The specified directory is not writable.")`
* `objNotWritable` — `ObjectException("Cannot attach object as writable file; ...")`
* `attachFailed`   — `ObjectException("Could not attach object - ... code %d.")`
* `filesystemError`— `FilesystemException`
* `uploadError`    — `UploadException`
* `keyError`       — an uncaught Python `KeyError` (missing dict key)
* `nameError`      — an uncaught Python `NameError` (use of an unimported module)
* `attributeError` — an uncaught Python `AttributeError` (access to an unset attribute)
* `outOfFuel`      — artefact of the fuelled embedding, not a program outcome -/
inductive Err : Type where
  | notFound
  | notADirectory
  | notAFile
  | invalidObject
  | dirNotWritable
  | objNotWritable
  | attachFailed (code : Nat)
  | filesystemError
  | uploadError
  | keyError
  | nameError
  | attributeError
  | outOfFuel
  deriving DecidableEq

/-- A resolved typed node: `File` or `Directory` object state as built by
the constructors in the source.  `writecap = none` models the attribute
being unset. -/
inductive Node : Type where
  | file (uri : String) (mutab : Bool) (readcap : String) (size : Nat)
      (verifycap : Option String) (writable : Bool) (writecap : Option String)
  | dir (uri : String) (mutab : Bool) (readcap : String)
      (verifycap : Option String) (writable : Bool) (writecap : Option String)
      (children : List (String × Node))

def Node.uri : Node → String
  | .file u _ _ _ _ _ _ => u
  | .dir u _ _ _ _ _ _ => u

def Node.readcap : Node → String
  | .file _ _ r _ _ _ _ => r
  | .dir _ _ r _ _ _ _ => r

def Node.writable : Node → Bool
  | .file _ _ _ _ _ w _ => w
  | .dir _ _ _ _ w _ _ => w

def Node.writecap : Node → Option String
  | .file _ _ _ _ _ _ wc => wc
  | .dir _ _ _ _ _ wc _ => wc

def Node.isFile : Node → Bool
  | .file _ _ _ _ _ _ _ => true
  | .dir _ _ _ _ _ _ _ => false

def Node.isDir : Node → Bool
  | .file _ _ _ _ _ _ _ => false
  | .dir _ _ _ _ _ _ _ => true

def Node.children : Node → List (String × Node)
  | .file _ _ _ _ _ _ _ => []
  | .dir _ _ _ _ _ _ c => c

/-- The grid as seen through `GET /uri/<uri>?t=json`: the envelope each
URI resolves to, or `none` when the fetch raises (unreachable WAPI or
invalid response). -/
def Grid : Type := String → Option Env

/-! ## File construction (`File.__init__` with the envelope supplied)

The constructor reads `details['mutable']`, `details['ro_uri']`,
`details['size']` (a missing key is an uncaught `KeyError`), keeps the
optional `verify_uri`, and sets `writable`/`writecap` only when `rw_uri`
is present (the class default `writable = False` applies otherwise and
`writecap` stays unset).  The guarded timestamp extraction touches no
field a claim mentions and is omitted. -/

def fileInitData (uri : String) (e : Env) : Except Err Node :=
  if e.tag == "filenode" then
    match e.mutab, e.ro, e.size with
    | some mu, some ro, some sz =>
      match e.rw with
      | some rw => .ok (.file uri mu ro sz e.verify true (some rw))
      | none => .ok (.file uri mu ro sz e.verify false none)
    | _, _, _ => .error .keyError
  else if e.tag == "unknown" then .error .notFound
  else .error .notAFile

/-! ## Directory construction (`Directory.__init__` / `Directory._get_data`)

`Directory.__init__` ignores any supplied envelope ("We always need to
retrieve the data for a directory") and calls `_get_data`, which fetches
the directory's own listing, extracts the details, and resolves every
child through `Filesystem.Object(child_uri, child_data)` with the
embedded child envelope.  `Object` with data supplied dispatches on the
tag without fetching; a `filenode` child is built from the embedded
envelope, a `dirnode` child constructs a `Directory`, which fetches
again.  `oldwc` is the value `self.writecap` held before `_get_data` ran
(`none` on a fresh instance): the `else` branch sets `writable = False`
but never clears `writecap`.

The second component of a successful result is the list of URIs fetched,
in order.  `kidsOf` walks the children; its per-child dispatch is
exactly `Filesystem.Object`'s (see `kidsOf_cons_dispatch`). -/

def childUri (ce : Env) : Except Err String :=
  match ce.rw with
  | some rw => .ok rw
  | none =>
    match ce.ro with
    | some ro => .ok ro
    | none => .error .keyError

/-- `if "rw_uri" in details: self.writable = True` (else `False`). -/
def dirWritableOf (rw : Option String) : Bool :=
  rw.isSome

/-- `self.writecap` after `_get_data`: set from `rw_uri` when present;
the `else` branch does not touch the attribute, so the prior value
(`none` on a fresh instance) survives. -/
def dirWritecapOf (rw oldwc : Option String) : Option String :=
  match rw with
  | some w => some w
  | none => oldwc

mutual

def dirInitNode (g : Grid) : Nat → String → Option String →
    Except Err (Node × List String)
  | 0, _, _ => .error .outOfFuel
  | fuel + 1, uri, oldwc =>
    match g uri with
    | none => .error .filesystemError
    | some env =>
      if env.tag == "dirnode" then
        match env.mutab, env.ro, env.children with
        | some mu, some ro, some cs =>
          match kidsOf g fuel cs with
          | .error e => .error e
          | .ok (kids, log) =>
            .ok (.dir uri mu ro env.verify (dirWritableOf env.rw)
              (dirWritecapOf env.rw oldwc) kids, uri :: log)
        | _, _, _ => .error .keyError
      else if env.tag == "unknown" then .error .notFound
      else .error .notADirectory

def kidsOf (g : Grid) : Nat → List (String × Env) →
    Except Err (List (String × Node) × List String)
  | _, [] => .ok ([], [])
  | 0, _ :: _ => .error .outOfFuel
  | fuel + 1, (name, ce) :: rest =>
    match childUri ce with
    | .error e => .error e
    | .ok curi =>
      match
        (if ce.tag == "filenode" then
          (fileInitData curi ce).map (fun n => (n, ([] : List String)))
        else if ce.tag == "dirnode" then dirInitNode g fuel curi none
        else .error .notFound) with
      | .error e => .error e
      | .ok (n, log1) =>
        match kidsOf g fuel rest with
        | .error e => .error e
        | .ok (ns, log2) => .ok ((name, n) :: ns, log1 ++ log2)

end

/-! ## The resolver (`Filesystem.Object`)

With an envelope supplied (`data is not None`) no fetch happens before
the dispatch; Python's `"filenode" in data` on the `[tag, details]` list
is equality of the tag.  A `dirnode` tag hands off to `Directory`, whose
constructor fetches.  Any other tag — `unknown` included — raises
`ObjectException("The specified object does not appear to exist.")`. -/

def objectWith (g : Grid) (fuel : Nat) (uri : String) (e : Env) :
    Except Err (Node × List String) :=
  if e.tag == "filenode" then
    (fileInitData uri e).map (fun n => (n, ([] : List String)))
  else if e.tag == "dirnode" then dirInitNode g fuel uri none
  else .error .notFound

/-- `Filesystem.Object` including the `data is None` case, where the
envelope is first fetched (a failed fetch is `FilesystemException`). -/
def objectResolve (g : Grid) (fuel : Nat) (uri : String) (data : Option Env) :
    Except Err (Node × List String) :=
  match data with
  | some e => objectWith g fuel uri e
  | none =>
    match g uri with
    | none => .error .filesystemError
    | some e =>
      match objectWith g fuel uri e with
      | .error err => .error err
      | .ok (n, log) => .ok (n, uri :: log)

/-- The per-child dispatch inside `_get_data`'s loop is exactly the
resolver `Filesystem.Object` applied to the embedded child envelope. -/
theorem kidsOf_cons_dispatch (g : Grid) (fuel : Nat) (name curi : String)
    (ce : Env) (rest : List (String × Env)) (h : childUri ce = .ok curi) :
    kidsOf g (fuel + 1) ((name, ce) :: rest) =
      (match objectWith g fuel curi ce with
       | .error e => .error e
       | .ok (n, log1) =>
         match kidsOf g fuel rest with
         | .error e => .error e
         | .ok (ns, log2) => .ok ((name, n) :: ns, log1 ++ log2)) := by
  simp only [kidsOf, h, objectWith]

theorem Node.isDir_eq_not_isFile (n : Node) : n.isDir = !n.isFile := by
  cases n <;> rfl

theorem Node.isFile_eq_not_isDir (n : Node) : n.isFile = !n.isDir := by
  cases n <;> rfl

theorem fileInitData_ok_isFile (uri : String) (e : Env) (n : Node)
    (h : fileInitData uri e = .ok n) : n.isFile = true := by
  unfold fileInitData at h
  repeat' split at h
  all_goals
    first
      | (simp only [Except.ok.injEq] at h; subst h; rfl)
      | simp at h

theorem dirInitNode_ok_isDir (g : Grid) (fuel : Nat) (uri : String)
    (oldwc : Option String) (n : Node) (log : List String)
    (h : dirInitNode g fuel uri oldwc = .ok (n, log)) : n.isDir = true := by
  match fuel with
  | 0 => simp [dirInitNode] at h
  | fuel + 1 =>
    unfold dirInitNode at h
    repeat' split at h
    all_goals
      first
        | (simp only [Except.ok.injEq, Prod.mk.injEq] at h;
           obtain ⟨h1, h2⟩ := h; subst h1; rfl)
        | simp at h

/-- C1: for every capability and fetched envelope, the resolver
(`Filesystem.Object`) yields a File node when the envelope tag is
`filenode` and a Directory node when the tag is `dirnode` — never the
other type; an envelope tagged `unknown` fails with the not-found
`ObjectException`; and (as amended) any other unrecognized tag fails
with that same not-found error, the resolver drawing no distinction. -/
theorem c1_resolver_dispatch (g : Grid) (fuel : Nat) (uri : String)
    (e : Env) (n : Node) (log : List String) :
    (objectWith g fuel uri e = .ok (n, log) →
      (e.tag = "filenode" → n.isFile = true ∧ n.isDir = false) ∧
      (e.tag = "dirnode" → n.isDir = true ∧ n.isFile = false)) ∧
    (e.tag = "unknown" → objectWith g fuel uri e = .error .notFound) ∧
    (e.tag ≠ "filenode" → e.tag ≠ "dirnode" →
      objectWith g fuel uri e = .error .notFound) := by
  refine ⟨fun hok => ⟨fun hf => ?_, fun hd => ?_⟩, fun hu => ?_, fun h1 h2 => ?_⟩
  · unfold objectWith at hok
    rw [hf] at hok
    simp only [beq_self_eq_true, if_true] at hok
    match hfi : fileInitData uri e with
    | .error err => rw [hfi] at hok; simp [Except.map] at hok
    | .ok m =>
      rw [hfi] at hok
      simp only [Except.map, Except.ok.injEq, Prod.mk.injEq] at hok
      have hm : m.isFile = true := fileInitData_ok_isFile uri e m hfi
      rw [← hok.1]
      exact ⟨hm, by rw [Node.isDir_eq_not_isFile, hm]; rfl⟩
  · unfold objectWith at hok
    rw [hd] at hok
    simp only [show (("dirnode" : String) == "filenode") = false from by decide,
      if_false, beq_self_eq_true, if_true, Bool.false_eq_true] at hok
    have hm : n.isDir = true := dirInitNode_ok_isDir g fuel uri none n log hok
    exact ⟨hm, by rw [Node.isFile_eq_not_isDir, hm]; rfl⟩
  · unfold objectWith
    rw [hu]
    rfl
  · unfold objectWith
    rw [if_neg (by simpa using h1), if_neg (by simpa using h2)]

/-- C1 counterexample: an envelope tagged `LIT` — neither `filenode`,
`dirnode`, nor `unknown` — makes the resolver raise the not-found
`ObjectException` (`"The specified object does not appear to exist."`),
not a distinct invalid-object error as the claim states: `Filesystem.
Object`'s `else` branch treats every unrecognized tag identically. -/
theorem c1_counterexample :
    objectWith (fun _ => none) 1 "u"
        (.mk "LIT" none none none none none none) = .error .notFound ∧
      Err.notFound ≠ Err.notADirectory ∧ Err.notFound ≠ Err.notAFile ∧
      Err.notFound ≠ Err.invalidObject :=
  ⟨rfl, by decide, by decide, by decide⟩

theorem c1_witness :
    (Node.file "u" false "RO" 5 none false none).isFile = true ∧
      (Node.file "u" false "RO" 5 none false none).isDir = false :=
  ((c1_resolver_dispatch (fun _ => none) 1 "u"
      (.mk "filenode" (some false) (some "RO") none none (some 5) none)
      (.file "u" false "RO" 5 none false none) []).1 rfl).1 rfl

/-! ## The attach protocol (`Filesystem.attach`)

The link request the client sends is
`PUT /uri/<directory.writecap>/<filename>?t=uri&replace=false` with the
chosen child cap as the body; a 200 status returns the filename, any
other raises `ObjectException("Could not attach object - ...")`.

The WAPI side of that request lives outside this repository.  It is
modelled from the spec (section 6): each directory write cap addresses a
name-to-cap mapping, and with `replace=false` a link under an existing
name is refused without changing anything. -/

/-- Modelled from the spec: server-side directory contents, a mapping
from directory write cap to its list of (child name, linked cap). -/
def ServerState : Type := List (String × List (String × String))

def setEntry (es : List (String × String)) (name cap : String) :
    List (String × String) :=
  match es with
  | [] => [(name, cap)]
  | (n, c) :: rest =>
    if n == name then (n, cap) :: rest else (n, c) :: setEntry rest name cap

def updateDir (st : ServerState) (parentCap name childCap : String) :
    ServerState :=
  match st with
  | [] => []
  | (c, es) :: rest =>
    if c == parentCap then (c, setEntry es name childCap) :: rest
    else (c, es) :: updateDir rest parentCap name childCap

/-- Modelled from the spec: `PUT /uri/<parent>/<name>?t=uri&replace=<replace>`.
Returns the HTTP status and the state after the request: 404 for an
unknown directory cap, 409 (unchanged state) for an existing name with
`replace` disabled, 200 with the link made otherwise. -/
def linkChild (st : ServerState) (parentCap name childCap : String)
    (replace : Bool) : Nat × ServerState :=
  match st.lookup parentCap with
  | none => (404, st)
  | some es =>
    if (es.lookup name).isSome && !replace then (409, st)
    else (200, updateDir st parentCap name childCap)

/-- The cap a server directory links under a name, if any. -/
def serverChild (st : ServerState) (dcap name : String) : Option String :=
  match st.lookup dcap with
  | none => none
  | some es => es.lookup name

/-- `Filesystem.attach(obj, directory, filename, **kwargs)`.
`writableArg` is the optional `writable` keyword.  Order as in the
source: the two `readcap`-presence probes (which cannot fire on nodes
built by the constructors, every one of which sets `readcap`), the
directory-writability check, filename sanitization, cap choice, then the
PUT with `replace=false`.  An access to a `writecap` attribute that was
never set would be an uncaught `AttributeError`. -/
def attach (st : ServerState) (obj target : Node) (filename : String)
    (writableArg : Option Bool) : Except Err String × ServerState :=
  if target.writable = false then (.error .dirNotWritable, st)
  else
    let fname := sanitize filename
    let filecap? : Except Err String :=
      match writableArg with
      | some true =>
        if obj.writable then
          match obj.writecap with
          | some w => .ok w
          | none => .error .attributeError
        else .error .objNotWritable
      | some false => .ok obj.readcap
      | none => .ok obj.readcap
    match filecap? with
    | .error e => (.error e, st)
    | .ok filecap =>
      match target.writecap with
      | none => (.error .attributeError, st)
      | some twc =>
        let r := linkChild st twc fname filecap false
        if r.1 = 200 then (.ok fname, r.2) else (.error (.attachFailed r.1), r.2)

theorem lookup_setEntry_self (es : List (String × String)) (name cap : String) :
    (setEntry es name cap).lookup name = some cap := by
  induction es with
  | nil => simp [setEntry, List.lookup]
  | cons p rest ih =>
    obtain ⟨n, c⟩ := p
    by_cases h : n = name
    · subst h
      simp [setEntry, List.lookup]
    · have hb : (n == name) = false := by simpa using h
      have hb2 : (name == n) = false := by simpa using Ne.symm h
      simp [setEntry, hb, List.lookup, hb2, ih]

theorem lookup_updateDir_self (st : ServerState) (p name cap : String)
    (es : List (String × String)) (h : st.lookup p = some es) :
    (updateDir st p name cap).lookup p = some (setEntry es name cap) := by
  induction st with
  | nil => simp [List.lookup] at h
  | cons q rest ih =>
    obtain ⟨c0, es0⟩ := q
    by_cases hc : c0 = p
    · subst hc
      simp only [List.lookup, beq_self_eq_true, if_true] at h ⊢
      simp only [Option.some.injEq] at h
      subst h
      simp [updateDir, List.lookup]
    · have hb : (c0 == p) = false := by simpa using hc
      have hb2 : (p == c0) = false := by simpa using Ne.symm hc
      simp only [List.lookup, hb2, if_false] at h
      simp [updateDir, hb, List.lookup, hb2, ih h]

theorem serverChild_after_fresh_link (st : ServerState) (p name cap : String)
    (es : List (String × String)) (h : st.lookup p = some es) :
    serverChild (updateDir st p name cap) p name = some cap := by
  unfold serverChild
  rw [lookup_updateDir_self st p name cap es h]
  exact lookup_setEntry_self es name cap

/-- C2: the cap chosen for an attach link is the write cap exactly when
`writable=True` was requested and the source has one; a writable request
against a non-writable source raises (`PermissionError` in the spec's
taxonomy, `ObjectException("Cannot attach object as writable file...")`
in the source), never a silent downgrade; a non-writable target
directory raises before anything else; and a read-only source attaches
fine with `writable` absent or false into a writable target. -/
theorem c2_attach_cap_choice (st : ServerState) (obj target : Node)
    (filename : String) (w twc : String) (es : List (String × String)) :
    -- (a) writable requested, source holds a write cap: the write cap is linked
    (target.writable = true → target.writecap = some twc →
      obj.writable = true → obj.writecap = some w →
      st.lookup twc = some es → es.lookup (sanitize filename) = none →
      attach st obj target filename (some true) =
          (.ok (sanitize filename), updateDir st twc (sanitize filename) w) ∧
        serverChild (attach st obj target filename (some true)).2 twc
          (sanitize filename) = some w) ∧
    -- (b) writable requested on a source with no write cap: PermissionError
    (target.writable = true → obj.writable = false →
      attach st obj target filename (some true) = (.error .objNotWritable, st)) ∧
    -- (c) target without a write cap: PermissionError, state untouched
    (target.writable = false → ∀ warg,
      attach st obj target filename warg = (.error .dirNotWritable, st)) ∧
    -- (d) writable absent or false: the read cap is linked, and a
    -- read-only source into a writable target succeeds
    (target.writable = true → target.writecap = some twc →
      st.lookup twc = some es → es.lookup (sanitize filename) = none →
      ∀ warg, warg = none ∨ warg = some false →
      attach st obj target filename warg =
          (.ok (sanitize filename),
            updateDir st twc (sanitize filename) obj.readcap) ∧
        serverChild (attach st obj target filename warg).2 twc
          (sanitize filename) = some obj.readcap) := by
  refine ⟨fun ht htc how howc hst hfresh => ?_,
          fun ht how => ?_, fun ht warg => ?_,
          fun ht htc hst hfresh warg hwarg => ?_⟩
  · have heq : attach st obj target filename (some true) =
        (.ok (sanitize filename), updateDir st twc (sanitize filename) w) := by
      unfold attach
      rw [ht]
      simp only [Bool.true_eq_false, if_false, how, if_true, howc, htc]
      unfold linkChild
      rw [hst]
      simp [hfresh]
    refine ⟨heq, ?_⟩
    rw [heq]
    exact serverChild_after_fresh_link st twc (sanitize filename) w es hst
  · unfold attach
    rw [ht, how]
    simp
  · unfold attach
    rw [ht]
    simp
  · have hcap : (match warg with
        | some true =>
          if obj.writable then
            match obj.writecap with
            | some w => Except.ok w
            | none => Except.error Err.attributeError
          else Except.error Err.objNotWritable
        | some false => Except.ok obj.readcap
        | none => Except.ok obj.readcap) = Except.ok obj.readcap := by
      rcases hwarg with h | h <;> subst h <;> rfl
    have heq : attach st obj target filename warg =
        (.ok (sanitize filename),
          updateDir st twc (sanitize filename) obj.readcap) := by
      unfold attach
      rw [ht]
      simp only [Bool.true_eq_false, if_false, hcap, htc]
      unfold linkChild
      rw [hst]
      simp [hfresh]
    refine ⟨heq, ?_⟩
    rw [heq]
    exact serverChild_after_fresh_link st twc (sanitize filename) obj.readcap es hst

theorem c2_witness :
    attach [("TW", [])] (.file "u" false "R" 0 none false none)
        (.dir "t" true "TR" none true (some "TW") []) "a" (some false) =
      (.ok "a", [("TW", [("a", "R")])]) :=
  ((c2_attach_cap_choice [("TW", [])] (.file "u" false "R" 0 none false none)
      (.dir "t" true "TR" none true (some "TW") []) "a" "W" "TW" []
      ).2.2.2 rfl rfl rfl rfl (some false) (Or.inr rfl)).1

/-- C4: every attach link request is sent with `replace=false`; when the
sanitized name already exists in the target's server-side directory the
request fails with status 409 and attach raises the `AttachError`-style
`ObjectException`, the server state — and so the existing child under
that name — left exactly as it was; and whenever the link request's
status is not 200, attach raises that error rather than returning. -/
theorem c4_attach_no_overwrite (st : ServerState) (obj target : Node)
    (filename : String) (twc : String) (es : List (String × String)) :
    (target.writable = true → target.writecap = some twc →
      st.lookup twc = some es →
      (es.lookup (sanitize filename)).isSome = true →
      attach st obj target filename none =
          (.error (.attachFailed 409), st) ∧
        ∀ nm, serverChild (attach st obj target filename none).2 twc nm =
          serverChild st twc nm) ∧
    (target.writable = true → target.writecap = some twc →
      ∀ code st2,
        linkChild st twc (sanitize filename) obj.readcap false = (code, st2) →
        code ≠ 200 →
        attach st obj target filename none =
          (.error (.attachFailed code), st2)) := by
  refine ⟨fun ht htc hst hex => ?_, fun ht htc code st2 hlink hcode => ?_⟩
  · have heq : attach st obj target filename none =
        (.error (.attachFailed 409), st) := by
      unfold attach
      rw [ht]
      simp only [Bool.true_eq_false, if_false, htc]
      unfold linkChild
      rw [hst]
      simp [hex]
    exact ⟨heq, fun nm => by rw [heq]⟩
  · unfold attach
    rw [ht]
    simp only [Bool.true_eq_false, if_false, htc, hlink]
    simp [hcode]

theorem c4_witness :
    attach [("TW", [("a", "OLD")])] (.file "u" false "R" 0 none false none)
        (.dir "t" true "TR" none true (some "TW") []) "a" none =
        (.error (.attachFailed 409), [("TW", [("a", "OLD")])]) ∧
      serverChild [("TW", [("a", "OLD")])] "TW" "a" = some "OLD" := by
  refine ⟨((c4_attach_no_overwrite [("TW", [("a", "OLD")])]
      (.file "u" false "R" 0 none false none)
      (.dir "t" true "TR" none true (some "TW") []) "a" "TW"
      [("a", "OLD")]).1 rfl rfl rfl rfl).1, rfl⟩

/-! ## Directory resolution and fetching (C3, C10 groundwork) -/

/-- Inversion: what a successful `_get_data` run tells us. -/
theorem dirInitNode_ok_inv (g : Grid) (fuel : Nat) (uri : String)
    (oldwc : Option String) (n : Node) (log : List String)
    (h : dirInitNode g (fuel + 1) uri oldwc = .ok (n, log)) :
    ∃ env mu ro cs kids lg,
      g uri = some env ∧ env.tag = "dirnode" ∧ env.mutab = some mu ∧
      env.ro = some ro ∧ env.children = some cs ∧
      kidsOf g fuel cs = .ok (kids, lg) ∧
      n = .dir uri mu ro env.verify (dirWritableOf env.rw)
        (dirWritecapOf env.rw oldwc) kids ∧
      log = uri :: lg := by
  unfold dirInitNode at h
  repeat' split at h
  all_goals
    first
      | (simp only [Except.ok.injEq, Prod.mk.injEq] at h
         obtain ⟨h1, h2⟩ := h
         rename_i x1 env hgu htagb x2 x3 x4 mu ro cs hmu hro hcs x5 kids lg hkids
         exact ⟨env, mu, ro, cs, kids, lg, hgu, eq_of_beq htagb, hmu, hro, hcs,
           hkids, h1.symm, h2.symm⟩)
      | simp at h

/-- Children whose embedded envelopes are all `filenode`-tagged are
resolved without any fetch: each is built from the embedded envelope. -/
theorem kidsOf_filenode_only :
    ∀ (cs : List (String × Env)) (g : Grid) (fuel : Nat)
      (ks : List (String × Node)) (lg : List String),
      (∀ nm ce, (nm, ce) ∈ cs → ce.tag = "filenode") →
      kidsOf g fuel cs = .ok (ks, lg) →
      lg = [] ∧ ks.map Prod.fst = cs.map Prod.fst := by
  intro cs
  induction cs with
  | nil =>
    intro g fuel ks lg _ h
    match fuel with
    | 0 =>
      simp only [kidsOf, Except.ok.injEq, Prod.mk.injEq] at h
      exact ⟨h.2.symm, by rw [← h.1]; rfl⟩
    | fuel + 1 =>
      simp only [kidsOf, Except.ok.injEq, Prod.mk.injEq] at h
      exact ⟨h.2.symm, by rw [← h.1]; rfl⟩
  | cons p rest ih =>
    intro g fuel ks lg hall h
    obtain ⟨nm, ce⟩ := p
    match fuel with
    | 0 => simp [kidsOf] at h
    | fuel + 1 =>
      have htag : ce.tag = "filenode" := hall nm ce (List.mem_cons_self _ _)
      unfold kidsOf at h
      rw [htag] at h
      simp only [beq_self_eq_true, if_true] at h
      match hcu : childUri ce with
      | .error e => simp only [hcu] at h; exact absurd h (by simp)
      | .ok curi =>
        simp only [hcu] at h
        match hfi : fileInitData curi ce with
        | .error e => simp only [hfi, Except.map] at h; exact absurd h (by simp)
        | .ok m =>
          simp only [hfi, Except.map] at h
          match hrest : kidsOf g fuel rest with
          | .error e => simp only [hrest] at h; exact absurd h (by simp)
          | .ok (ns, lg2) =>
            simp only [hrest, Except.ok.injEq, Prod.mk.injEq] at h
            obtain ⟨hks, hlg⟩ := h
            have hih := ih g fuel ns lg2
              (fun nm2 ce2 hm => hall nm2 ce2 (List.mem_cons_of_mem _ hm)) hrest
            refine ⟨?_, ?_⟩
            · rw [← hlg]
              simp [hih.1]
            · rw [← hks]
              simp [hih.2]

def c3Env : Env :=
  .mk "dirnode" (some true) (some "RO") none none none (some [])

def c3Grid : Grid := fun u =>
  if u = "d" then some c3Env else none

/-- C3 counterexample: resolving capability `d` with its `dirnode`
envelope supplied in advance still issues a fetch — `Directory.__init__`
discards the supplied data ("We always need to retrieve the data for a
directory") and `_get_data` re-fetches the directory's own listing, so
the fetch log is `["d"]`, not the `[]` the claim requires. -/
theorem c3_counterexample :
    objectResolve c3Grid 2 "d" (some c3Env) =
        .ok (.dir "d" true "RO" none false none [], ["d"]) ∧
      (["d"] : List String) ≠ ([] : List String) :=
  ⟨rfl, by decide⟩

/-- C3 as amended: resolving a directory from a supplied envelope
re-fetches the directory's own listing exactly once and populates the
children mapping in that single pass, each child resolved from its
embedded envelope: when every embedded child envelope is
`filenode`-tagged the whole resolution fetches only the directory's own
URI (child directories, by contrast, fetch their own listings). -/
theorem c3_refetch_embedded_children (g : Grid) (fuel : Nat) (uri : String)
    (e : Env) (n : Node) (log : List String)
    (hdtag : e.tag = "dirnode")
    (hemb : ∀ env cs, g uri = some env → env.children = some cs →
      ∀ nm ce, (nm, ce) ∈ cs → ce.tag = "filenode")
    (hok : objectResolve g (fuel + 1) uri (some e) = .ok (n, log)) :
    log = [uri] ∧
      (∀ env cs, g uri = some env → env.children = some cs →
        n.children.map Prod.fst = cs.map Prod.fst) := by
  simp only [objectResolve] at hok
  unfold objectWith at hok
  rw [hdtag] at hok
  simp only [show (("dirnode" : String) == "filenode") = false from by decide,
    if_false, beq_self_eq_true, if_true, Bool.false_eq_true] at hok
  obtain ⟨env, mu, ro, cs, kids, lg, hg, htag, hmu, hro, hcs, hkids, hn, hlog⟩ :=
    dirInitNode_ok_inv g fuel uri none n log hok
  have hfile : ∀ nm ce, (nm, ce) ∈ cs → ce.tag = "filenode" :=
    hemb env cs hg hcs
  obtain ⟨hlg, hnames⟩ := kidsOf_filenode_only cs g fuel kids lg hfile hkids
  constructor
  · rw [hlog, hlg]
  · intro env2 cs2 hg2 hcs2
    rw [hg2] at hg
    obtain rfl := Option.some.inj hg
    rw [hcs2] at hcs
    obtain rfl := Option.some.inj hcs
    rw [hn]
    simpa [Node.children] using hnames

def c3wChild : Env :=
  .mk "filenode" (some false) (some "FR") none none (some 3) none

def c3wEnv : Env :=
  .mk "dirnode" (some true) (some "RO") none none none (some [("a", c3wChild)])

def c3wGrid : Grid := fun u =>
  if u = "d" then some c3wEnv else none

theorem c3_witness :
    (["d"] : List String) = ["d"] ∧
      (Node.dir "d" true "RO" none false none
          [("a", Node.file "FR" false "FR" 3 none false none)]).children.map
          Prod.fst =
        [("a", c3wChild)].map Prod.fst := by
  have h := c3_refetch_embedded_children c3wGrid 1 "d" c3wEnv
    (.dir "d" true "RO" none false none
      [("a", .file "FR" false "FR" 3 none false none)]) ["d"]
    rfl
    (fun env cs hg hcs nm ce hm => by
      have hg2 : some c3wEnv = some env := hg
      obtain rfl := (Option.some.inj hg2).symm
      have hcs2 : some [("a", c3wChild)] = some cs :=
        (show c3wEnv.children = some [("a", c3wChild)] from rfl) ▸ hcs
      obtain rfl := (Option.some.inj hcs2).symm
      simp only [List.mem_singleton, Prod.mk.injEq] at hm
      rw [hm.2]
      rfl)
    (show objectResolve c3wGrid 2 "d" (some c3wEnv) =
      .ok (.dir "d" true "RO" none false none
        [("a", .file "FR" false "FR" 3 none false none)], ["d"]) from rfl)
  exact ⟨h.1, h.2 c3wEnv [("a", c3wChild)] rfl rfl⟩

/-! ## Client construction (`Filesystem.__init__`, C6) -/

/-- Outcome of `requests.get("%s/statistics?t=json" % url).json()`:
transport failure, a body `.json()` cannot parse, or parsed JSON in
which the `stats` key and its `node.uptime` entry may each be missing. -/
inductive ProbeResult : Type where
  | netError
  | notJson
  | json (stats : Option (Option Int))

/-- `url.strip()`: Python strips leading and trailing whitespace. -/
def pyStrip (s : String) : String :=
  ⟨((s.data.dropWhile Char.isWhitespace).reverse.dropWhile
    Char.isWhitespace).reverse⟩

/-- `Filesystem.__init__`: rejects a blank WAPI URL, converts both probe
exceptions to `FilesystemException`, and on success records
`start_date = time.time() - data['stats']['node.uptime']` — a dict
access *outside* the `try`, so a parsed body missing those keys is an
uncaught `KeyError`, not a `FilesystemException`.  Returns the recorded
start date. -/
def fsInit (now : Int) (url : String) (probe : ProbeResult) : Except Err Int :=
  if pyStrip url = "" then .error .filesystemError
  else
    match probe with
    | .netError => .error .filesystemError
    | .notJson => .error .filesystemError
    | .json none => .error .keyError
    | .json (some none) => .error .keyError
    | .json (some (some up)) => .ok (now - up)

/-- C6: with a non-blank WAPI URL, construction succeeds exactly when
the statistics probe parses to JSON containing the uptime entry, the
recorded start time then being now minus the reported uptime (uptime 42
gives now − 42); a non-JSON body or an unreachable endpoint fails with
`FilesystemException`. -/
theorem c6_construction (now : Int) (url : String) (h : pyStrip url ≠ "") :
    (∀ p, (∃ v, fsInit now url p = .ok v) ↔ ∃ u, p = .json (some (some u))) ∧
      (∀ u, fsInit now url (.json (some (some u))) = .ok (now - u)) ∧
      fsInit now url .notJson = .error .filesystemError ∧
      fsInit now url .netError = .error .filesystemError := by
  refine ⟨fun p => ⟨fun ⟨v, hv⟩ => ?_, fun ⟨u, hu⟩ => ?_⟩,
    fun u => ?_, ?_, ?_⟩
  · match p with
    | .netError => simp [fsInit, h] at hv
    | .notJson => simp [fsInit, h] at hv
    | .json none => simp [fsInit, h] at hv
    | .json (some none) => simp [fsInit, h] at hv
    | .json (some (some u)) => exact ⟨u, rfl⟩
  · subst hu
    exact ⟨now - u, by simp [fsInit, h]⟩
  · simp [fsInit, h]
  · simp [fsInit, h]
  · simp [fsInit, h]

theorem c6_witness :
    fsInit 100 "http://localhost:3456/" (.json (some (some 42))) =
        .ok (100 - 42) ∧
      fsInit 100 "http://localhost:3456/" .notJson =
        .error .filesystemError := by
  have h := c6_construction 100 "http://localhost:3456/" (by decide)
  exact ⟨h.2.1 42, h.2.2.1⟩

/-! ## File reading (`File.read`, C7) -/

/-- Modelled from the spec: the lazily opened HTTP byte stream
(`requests.get(..., prefetch=False)`).  `body` is the full response
content (bytes as naturals), `pos` the current read position. -/
structure RStream : Type where
  body : List Nat
  pos : Nat

/-- `self.request.raw.read(amt=n)`: at most `n` bytes from the current
position, advancing it. -/
def rawRead (s : RStream) (n : Nat) : List Nat × RStream :=
  (((s.body.drop s.pos).take n),
    ⟨s.body, s.pos + ((s.body.drop s.pos).take n).length⟩)

/-- `self.request.content`: drain the remaining content. -/
def contentRead (s : RStream) : List Nat × RStream :=
  (s.body.drop s.pos, ⟨s.body, s.body.length⟩)

/-- `File.read(length=None)`: open the stream if `self.request is None`
(caching it on the node), then `.content` when no length is given, else
`raw.read(amt=length)`.  Returns the bytes read, the stream cached on
the node afterwards, and whether this call performed the open. -/
def fileRead (body : List Nat) (req : Option RStream) (length : Option Nat) :
    List Nat × RStream × Bool :=
  let s : RStream :=
    match req with
    | none => ⟨body, 0⟩
    | some s => s
  match length with
  | none => ((contentRead s).1, (contentRead s).2, req.isNone)
  | some n => ((rawRead s n).1, (rawRead s n).2, req.isNone)

/-- A sequence of `read` calls against one node instance, counting how
many of them opened the stream. -/
def runReads (body : List Nat) (req : Option RStream) :
    List (Option Nat) → Option RStream × Nat
  | [] => (req, 0)
  | c :: rest =>
    let r := fileRead body req c
    let rr := runReads body (some r.2.1) rest
    (rr.1, (if r.2.2 then 1 else 0) + rr.2)

theorem runReads_cached_opens_zero (body : List Nat) (calls : List (Option Nat)) :
    ∀ s : RStream, (runReads body (some s) calls).2 = 0 := by
  induction calls with
  | nil => intro s; rfl
  | cons c rest ih =>
    intro s
    match c with
    | none => simpa [runReads, fileRead] using ih _
    | some n => simpa [runReads, fileRead] using ih _

/-- C7: per `File` instance the byte stream is opened at most once — the
first call opens and caches it, every later call reuses the cache; a
read with a length returns at most that many bytes from the current
position; a read without length returns the full remaining content; and
reading an exhausted stream returns an empty result rather than
raising. -/
theorem c7_file_read (body : List Nat) (s : RStream)
    (calls : List (Option Nat)) (n : Nat) (l : Option Nat) :
    (runReads body none calls).2 ≤ 1 ∧
      (fileRead body none l).2.2 = true ∧
      (fileRead body (some s) l).2.2 = false ∧
      (fileRead body (some s) (some n)).1.length ≤ n ∧
      (fileRead body (some s) none).1 = s.body.drop s.pos ∧
      (s.body.length ≤ s.pos → (fileRead body (some s) l).1 = []) := by
  refine ⟨?_, ?_, ?_, ?_, ?_, fun hex => ?_⟩
  · match calls with
    | [] => exact Nat.zero_le _
    | c :: rest =>
      simp only [runReads]
      rw [runReads_cached_opens_zero body rest]
      split <;> simp
  · match l with
    | none => rfl
    | some k => rfl
  · match l with
    | none => rfl
    | some k => rfl
  · simpa [fileRead, rawRead] using
      Nat.le_trans (Nat.le_of_eq (List.length_take _ _)) (Nat.min_le_left _ _)
  · rfl
  · have hdrop : s.body.drop s.pos = [] := List.drop_eq_nil_of_le hex
    match l with
    | none => simp [fileRead, contentRead, hdrop]
    | some k => simp [fileRead, rawRead, hdrop]

theorem c7_witness :
    (runReads [7, 8] none [none, some 1]).2 ≤ 1 ∧
      (fileRead [7, 8] (some ⟨[7, 8], 2⟩) none).1 = [] := by
  have h := c7_file_read [7, 8] ⟨[7, 8], 2⟩ [none, some 1] 1 none
  exact ⟨h.1, h.2.2.2.2.2 (by decide)⟩

/-! ## Upload filename derivation (`Directory.upload` / `Filesystem.upload`, C8) -/

/-- `os.path.basename`: the part after the last `/`. -/
def basename (p : String) : String :=
  ⟨p.data.foldl (fun acc c => if c = '/' then [] else acc ++ [c]) []⟩

/-- The `filedata` argument: a path string, a file object — whose
`.name` attribute is a `str` or (e.g. for a descriptor-opened file) not
— or any other value. -/
inductive FileData : Type where
  | path (p : String)
  | fileObj (nameAttr : Option String)
  | other

/-- The filename-derivation logic at the top of `Directory.upload` when
`filename is None`: a path string yields its sanitized basename, a file
object with a string `.name` yields that name sanitized, any other
value raises `UploadException`.  A file object whose `.name` is not a
string falls into
`''.join(random.choice(string.ascii_lowercase + ...) ...)` — but the
`random` and `string` modules are never imported (the file imports only
`json, time, os, re, requests, urllib`), so that line raises an uncaught
`NameError` instead of generating a random name. -/
def deriveFilename (fd : FileData) (filename : Option String) :
    Except Err String :=
  match filename with
  | some n => .ok n
  | none =>
    match fd with
    | .path p => .ok (sanitize (basename p))
    | .fileObj (some n) => .ok (sanitize n)
    | .fileObj none => .error .nameError
    | .other => .error .uploadError

/-- `Filesystem.upload`'s source validation: a `str` must be an openable
path (`IOError` → `UploadException`), a file object passes, anything
else is an `UploadException`.  `pathOk` abstracts the host filesystem. -/
def fsUploadCheck (pathOk : String → Bool) (fd : FileData) :
    Except Err Unit :=
  match fd with
  | .path p => if pathOk p then .ok () else .error .uploadError
  | .fileObj _ => .ok ()
  | .other => .error .uploadError

/-- `Directory.upload` up to the name under which the uploaded file is
attached: derive the filename, then run `Filesystem.upload`'s
validation. -/
def dirUploadName (pathOk : String → Bool) (fd : FileData)
    (filename : Option String) : Except Err String :=
  match deriveFilename fd filename with
  | .error e => .error e
  | .ok fname =>
    match fsUploadCheck pathOk fd with
    | .error e => .error e
    | .ok _ => .ok fname

/-- C8: upload with no explicit filename derives the sanitized name from
a path or a file object's string `.name`, and fails with
`UploadException` when the source is neither — all as claimed; but on a
file object with no usable name hint the code raises `NameError` (the
`random`/`string` modules are never imported) instead of synthesizing a
random filename as claimed and as the adjacent comment intends. -/
theorem c8_upload_filename :
    dirUploadName (fun _ => true) (.fileObj none) none = .error .nameError ∧
      dirUploadName (fun _ => true) .other none = .error .uploadError ∧
      dirUploadName (fun _ => true) (.path "/tmp/a b;c.txt") none =
        .ok (sanitize "a b;c.txt") ∧
      sanitize "a b;c.txt" = "a bc.txt" ∧
      dirUploadName (fun _ => true) (.fileObj (some "n;ame.txt")) none =
        .ok "name.txt" :=
  ⟨rfl, rfl, rfl, rfl, rfl⟩

/-! ## Subdirectory creation (`Directory.create_directory`, C9) -/

/-- `Filesystem.create_directory` + `Directory.create_directory`: the
POST `?t=mkdir` (external, its returned write cap is the input `newcap`)
is resolved through `self.Directory(newcap)` — a fetch — and the new
node is attached into the parent under the sanitized name with
`writable=True`.  The parent object is returned exactly as the
operation leaves it: no assignment in the source touches
`self.children` (the docstring: "the .children attribute ... is not
updated until the Directory.refresh() method is called").  -/
def create_directory (g : Grid) (fuel : Nat) (st : ServerState)
    (parent : Node) (newcap : String) (name : String) :
    Except Err (Node × Node × ServerState) :=
  match dirInitNode g fuel newcap none with
  | .error e => .error e
  | .ok (nd, _) =>
    match attach st nd parent (sanitize name) (some true) with
    | (.error e, _) => .error e
    | (.ok _, st2) => .ok (nd, parent, st2)

/-- `Directory.refresh`: re-run `_get_data` against the node's own URI;
the node's prior `writecap` survives into `_get_data`'s `else` branch
(see `dirWritecapOf`). -/
def refresh (g : Grid) (fuel : Nat) (d : Node) :
    Except Err (Node × List String) :=
  dirInitNode g fuel d.uri d.writecap

def Node.mutab : Node → Bool
  | .file _ m _ _ _ _ _ => m
  | .dir _ m _ _ _ _ _ => m

theorem kidsOf_nil (g : Grid) (fuel : Nat) :
    kidsOf g fuel [] = .ok ([], []) := by
  match fuel with
  | 0 => rfl
  | _ + 1 => rfl

/-- C9: `createSubdirectory(name)` resolves the freshly created mutable
directory, attaches it under the sanitized name as a writable child of
the parent (the new directory's write cap is what gets linked), returns
the new node — and returns the parent exactly as it was: its in-memory
children mapping is untouched until `refresh()` re-resolves it. -/
theorem c9_create_subdirectory (g : Grid) (fuel : Nat) (st : ServerState)
    (parent : Node) (newcap name ro w twc : String) (env : Env)
    (es : List (String × String))
    (hg : g newcap = some env) (htag : env.tag = "dirnode")
    (hmu : env.mutab = some true) (hro : env.ro = some ro)
    (hrw : env.rw = some w) (hcs : env.children = some [])
    (hpw : parent.writable = true) (hptc : parent.writecap = some twc)
    (hst : st.lookup twc = some es)
    (hfresh : es.lookup (sanitize name) = none) :
    create_directory g (fuel + 1) st parent newcap name =
        .ok (.dir newcap true ro env.verify true (some w) [],
          parent, updateDir st twc (sanitize name) w) ∧
      serverChild (updateDir st twc (sanitize name) w) twc
        (sanitize name) = some w ∧
      (Node.dir newcap true ro env.verify true (some w) []).writable = true ∧
      (Node.dir newcap true ro env.verify true (some w) []).mutab = true := by
  have hdir : dirInitNode g (fuel + 1) newcap none =
      .ok (.dir newcap true ro env.verify true (some w) [], [newcap]) := by
    unfold dirInitNode
    rw [hg]
    simp only [htag, beq_self_eq_true, if_true, hmu, hro, hcs, kidsOf_nil,
      hrw]
    rfl
  have hatt : attach st (.dir newcap true ro env.verify true (some w) [])
      parent (sanitize name) (some true) =
      (.ok (sanitize name), updateDir st twc (sanitize name) w) := by
    unfold attach
    rw [hpw]
    simp only [Bool.true_eq_false, if_false, hptc, sanitize_idem]
    show (if (linkChild st twc (sanitize name) w false).1 = 200 then _
      else _) = _
    unfold linkChild
    rw [hst]
    simp [hfresh]
  refine ⟨?_, ?_, rfl, rfl⟩
  · unfold create_directory
    rw [hdir]
    simp only [hatt]
  · exact serverChild_after_fresh_link st twc (sanitize name) w es hst

def c9wEnv : Env :=
  .mk "dirnode" (some true) (some "NRO") (some "NW") none none (some [])

def c9wGrid : Grid := fun u =>
  if u = "NEW" then some c9wEnv else none

theorem c9_witness :
    create_directory c9wGrid 1 [("TW", [])]
        (.dir "p" true "PR" none true (some "TW") []) "NEW" "sub;dir" =
        .ok (.dir "NEW" true "NRO" none true (some "NW") [],
          .dir "p" true "PR" none true (some "TW") [],
          updateDir [("TW", [])] "TW" (sanitize "sub;dir") "NW") ∧
      serverChild (updateDir [("TW", [])] "TW" (sanitize "sub;dir") "NW")
        "TW" (sanitize "sub;dir") = some "NW" := by
  have h := c9_create_subdirectory c9wGrid 0 [("TW", [])]
    (.dir "p" true "PR" none true (some "TW") []) "NEW" "sub;dir"
    "NRO" "NW" "TW" c9wEnv [] rfl rfl rfl rfl rfl rfl rfl rfl rfl rfl
  exact ⟨h.1, h.2.1⟩

/-! ## The capability invariant (C10) -/

/-- C10 (amended): a freshly constructed File or Directory node
satisfies writable ↔ writecap-set, with the read cap always present
(drawn from the envelope's mandatory `ro_uri`); every operation
preserves the direction writable → writecap-set, `refresh()` included —
but `refresh()` does not preserve the converse: `_get_data`'s `else`
branch clears `writable` without clearing a previously set `writecap`
(see the counterexample). -/
theorem c10_invariant (g : Grid) (fuel : Nat) (uri : String) (e : Env)
    (n : Node) (log : List String) :
    (fileInitData uri e = .ok n →
      ((n.writable = true ↔ n.writecap.isSome = true) ∧
        ∃ ro, e.ro = some ro ∧ n.readcap = ro)) ∧
    (dirInitNode g fuel uri none = .ok (n, log) →
      ((n.writable = true ↔ n.writecap.isSome = true) ∧
        ∃ env ro, g uri = some env ∧ env.ro = some ro ∧ n.readcap = ro)) ∧
    (∀ oldwc, dirInitNode g fuel uri oldwc = .ok (n, log) →
      n.writable = true → n.writecap.isSome = true) := by
  refine ⟨fun hf => ?_, fun hd => ?_, fun oldwc hd hw => ?_⟩
  · unfold fileInitData at hf
    repeat' split at hf
    all_goals
      first
        | (simp only [Except.ok.injEq] at hf; subst hf;
           refine ⟨by simp [Node.writable, Node.writecap], ?_⟩;
           exact ⟨_, by assumption, rfl⟩)
        | simp at hf
  · match fuel with
    | 0 => simp [dirInitNode] at hd
    | fuel + 1 =>
      obtain ⟨env, mu, ro, cs, kids, lg, hg, htag, hmu, hro, hcs, hkids,
        hn, hlog⟩ := dirInitNode_ok_inv g fuel uri none n log hd
      subst hn
      refine ⟨?_, ⟨env, ro, hg, hro, rfl⟩⟩
      match env.rw with
      | some w =>
        simp [Node.writable, Node.writecap, dirWritableOf, dirWritecapOf]
      | none =>
        simp [Node.writable, Node.writecap, dirWritableOf, dirWritecapOf]
  · match fuel with
    | 0 => simp [dirInitNode] at hd
    | fuel + 1 =>
      obtain ⟨env, mu, ro, cs, kids, lg, hg, htag, hmu, hro, hcs, hkids,
        hn, hlog⟩ := dirInitNode_ok_inv g fuel uri oldwc n log hd
      subst hn
      match hrw : env.rw with
      | some w => simp [Node.writecap, dirWritecapOf, hrw]
      | none =>
        rw [hrw] at hw
        simp [Node.writable, dirWritableOf] at hw

theorem c10_witness :
    ((Node.file "u" false "R" 7 none true (some "W")).writable = true ↔
        (Node.file "u" false "R" 7 none true (some "W")).writecap.isSome =
          true) ∧
      ∃ ro, (Env.mk "filenode" (some false) (some "R") (some "W") none
          (some 7) none).ro = some ro ∧
        (Node.file "u" false "R" 7 none true (some "W")).readcap = ro :=
  (c10_invariant (fun _ => none) 1 "u"
      (.mk "filenode" (some false) (some "R") (some "W") none (some 7) none)
      (.file "u" false "R" 7 none true (some "W")) []).1 rfl

def c10GridBefore : Grid := fun u =>
  if u = "D" then
    some (.mk "dirnode" (some true) (some "RO") (some "W") none none
      (some []))
  else none

def c10GridAfter : Grid := fun u =>
  if u = "D" then
    some (.mk "dirnode" (some true) (some "RO") none none none (some []))
  else none

/-- C10 counterexample: a directory constructed while the grid reports
`rw_uri` has `writable=True, writecap="W"`; after the grid stops
reporting `rw_uri` for that URI, `refresh()` runs `_get_data`'s `else`
branch, which sets `writable=False` but never deletes `self.writecap` —
the refreshed node has `writable=False` with `writecap` still set, so
the claimed iff-invariant is not preserved by `refresh()`. -/
theorem c10_counterexample :
    dirInitNode c10GridBefore 1 "D" none =
        .ok (.dir "D" true "RO" none true (some "W") [], ["D"]) ∧
      refresh c10GridAfter 1 (.dir "D" true "RO" none true (some "W") []) =
        .ok (.dir "D" true "RO" none false (some "W") [], ["D"]) ∧
      (Node.dir "D" true "RO" none false (some "W") []).writable = false ∧
      (Node.dir "D" true "RO" none false (some "W") []).writecap.isSome =
        true :=
  ⟨rfl, rfl, rfl, rfl⟩

end Pytahoe
